import Mathlib

/-!
Verification of the joke-bot workflow repository.

The repository builds two LangGraph workflows:
* `run_wk5_l2b_pyjokes_joke_bot.py` — a menu loop fetching jokes from pyjokes;
* `run_wk5_l2c_llm_joke_bot.py`     — the same menu loop with a writer/critic
  LLM sub-pattern replacing the joke fetch.

Node functions, decision functions and the graph wiring are translated from
those two source files.  The graph-execution engine itself (state merge with
per-field policies, conditional-edge resolution, step ceiling) lives in the
external LangGraph library, not in this repository; those parts are modelled
from the specification (state container §4.1, edge table §4.3, executor §4.4).
External capabilities (user input, joke source, LLM ports) are modelled as
explicit inputs threaded through a `World` record, per spec §6.
-/

/-- `Joke` (run_wk5_l2b_pyjokes_joke_bot.py:14-16): an immutable artifact with
a text payload and a category tag. -/
structure Joke where
  text : String
  category : String
deriving DecidableEq, Repr

/-- Modelled from the spec (§4.1, §3): a value assigned to one State field by
a partial update.  Payload types cover every field of the two schemas. -/
inductive FieldVal where
  | jokesV (v : List Joke)
  | strV (v : String)
  | boolV (v : Bool)
  | intV (v : Int)
deriving DecidableEq, Repr

/-- Terminal marker: LangGraph's END sentinel (spec §2 "Terminal Marker"). -/
def ENDMARK : String := "__end__"

/-- Modelled from the spec (§7): errors a single executor step can raise. -/
inductive StepErr where
  | schemaErr (field : String)
  | typeErr (field : String)
  | envErr
  | unknownNode (name : String)
deriving DecidableEq, Repr

/-- Modelled from the spec (§4.4, §7): how a run ends. -/
inductive RunResult (σ : Type) where
  | halted (final : σ)
  | stepLimitExceeded (last : σ)
  | routingError (last : σ)
  | failed (last : σ) (e : StepErr)
deriving DecidableEq, Repr

/-- Modelled from the spec (§4.3): look a decision label up in a conditional
edge's label-to-node table (the dict passed to `add_conditional_edges`). -/
def lookupLabel (tbl : List (String × String)) (lab : String) : Option String :=
  match tbl.find? (fun e => e.1 == lab) with
  | some e => some e.2
  | none => none

/-- Modelled from the spec (§4.4): the graph executor.  Per step: halt at the
terminal marker; otherwise run the node's step function (which merges its
partial update into state), resolve the next node on the post-merge state,
and continue.  `fuel` is the step ceiling (`recursion_limit`); exhausting it
at a non-terminal node is `stepLimitExceeded` carrying the last state reached.
Also returns the list of node names executed, in order. -/
def runLoop {σ : Type} (stepFn : String → σ → Except StepErr σ)
    (res : String → σ → Option String) :
    Nat → String → σ → RunResult σ × List String
  | 0, node, s =>
    if node = ENDMARK then (RunResult.halted s, []) else (RunResult.stepLimitExceeded s, [])
  | fuel+1, node, s =>
    if node = ENDMARK then (RunResult.halted s, [])
    else
      match stepFn node s with
      | .error e => (RunResult.failed s e, [node])
      | .ok s2 =>
        match res node s2 with
        | none => (RunResult.routingError s2, [node])
        | some nxt =>
          let r := runLoop stepFn res fuel nxt s2
          (r.1, node :: r.2)

/-- The node and state reached after at most `n` executor steps (companion of
`runLoop`, used to say which state a `stepLimitExceeded` result carries). -/
def iterSteps {σ : Type} (stepFn : String → σ → Except StepErr σ)
    (res : String → σ → Option String) :
    Nat → String → σ → String × σ
  | 0, node, s => (node, s)
  | fuel+1, node, s =>
    match stepFn node s with
    | .error _ => (node, s)
    | .ok s2 =>
      match res node s2 with
      | none => (node, s2)
      | some nxt => iterSteps stepFn res fuel nxt s2

/-- Python's `str.strip()` on the character list of a string: drop whitespace
from both ends. -/
def pyTrim (l : List Char) : List Char :=
  ((l.dropWhile Char.isWhitespace).reverse.dropWhile Char.isWhitespace).reverse

/-- Python's `str.lower()` on the character list of a string. -/
def pyLower (l : List Char) : List Char := l.map Char.toLower

/-- `.strip()` as a string-to-string function. -/
def pyStrip (s : String) : String := ⟨pyTrim s.data⟩

/-- `.strip().lower()` as a string-to-string function. -/
def strip_lower (s : String) : String := ⟨pyLower (pyTrim s.data)⟩

/-- Python's `pat in hay` substring test, on character lists. -/
def hasSub (pat : List Char) : List Char → Bool
  | [] => pat.isEmpty
  | c :: t => pat.isPrefixOf (c :: t) || hasSub pat t

/-- Numeric value of a decimal digit character. -/
def digitVal (c : Char) : Nat := c.toNat - '0'.toNat

/-- Digit run of a CPython decimal integer literal: digits with single
underscores allowed between digits (`1_0`), never leading, trailing or
doubled.  Accumulates the value. -/
def pyDigits : List Char → Nat → Option Nat
  | [], acc => some acc
  | c :: cs, acc =>
    if c.isDigit then pyDigits cs (acc * 10 + digitVal c)
    else if c = '_' then
      match cs with
      | [] => none
      | d :: cs2 => if d.isDigit then pyDigits cs2 (acc * 10 + digitVal d) else none
    else none

/-- Unsigned part of `int(str)`: nonempty, must start with a digit. -/
def pyIntCore (l : List Char) : Option Nat :=
  match l with
  | [] => none
  | c :: _ => if c.isDigit then pyDigits l 0 else none

/-- Python's `int(str)` on ASCII input: strips surrounding whitespace, then an
optional sign followed by a decimal digit run (underscores allowed between
digits).  Anything else raises ValueError, modelled as `none`. -/
def pyInt (s : String) : Option Int :=
  match pyTrim s.data with
  | '+' :: rest => (pyIntCore rest).map (fun n => (n : Int))
  | '-' :: rest => (pyIntCore rest).map (fun n => -(n : Int))
  | l => (pyIntCore l).map (fun n => (n : Int))

/-- Python's `"yes" in decision` substring test. -/
def contains_yes (s : String) : Bool := hasSub "yes".data s.data

/-- `get_user_input` (run_wk5_l2b_pyjokes_joke_bot.py:36-37):
`input(prompt).strip().lower()`. -/
def get_user_input (raw : String) : String := strip_lower raw

namespace L2b

/-- `JokeState` (run_wk5_l2b_pyjokes_joke_bot.py:19-28).  `jokes` is annotated
with the `add` reducer (Append policy); every other field is Replace policy.
Field defaults are the pydantic defaults. -/
structure JokeState where
  jokes : List Joke := []
  jokes_choice : String := "n"
  category : String := "neutral"
  language : String := "en"
  quit : Bool := false
deriving DecidableEq, Repr

/-- The initial state `JokeState()` passed by `main` (line 188). -/
def initState : JokeState := {}

/-- Field names declared by the `JokeState` schema. -/
def declaredField (name : String) : Bool :=
  name == "jokes" || name == "jokes_choice" || name == "category" ||
    name == "language" || name == "quit"

/-- A partial update: field-name/value assignments returned by a node. -/
abbrev Update := List (String × FieldVal)

/-- Merge a single declared field per its policy: `jokes` appends (the `add`
reducer), all other fields replace.  `none` on a payload of the wrong type
(pydantic validation). -/
def applyField (s : JokeState) (name : String) (v : FieldVal) :
    Option JokeState :=
  match name, v with
  | "jokes", .jokesV js => some { s with jokes := s.jokes ++ js }
  | "jokes_choice", .strV c => some { s with jokes_choice := c }
  | "category", .strV c => some { s with category := c }
  | "language", .strV c => some { s with language := c }
  | "quit", .boolV b => some { s with quit := b }
  | _, _ => none

/-- Fold the (validated) assignments of an update into the state. -/
def applyGo : JokeState → List (String × FieldVal) → Except StepErr JokeState
  | s, [] => .ok s
  | s, (name, v) :: rest =>
    match applyField s name v with
    | some s2 => applyGo s2 rest
    | none => .error (.typeErr name)

/-- Modelled from the spec (§4.1): `apply(state, partial) -> state'`.  Fails
with `SchemaError` if the update contains a field name not declared in the
schema — in that case no new state is produced, so no field assignment of a
rejected update is ever applied.  Otherwise each field present is merged per
its policy and absent fields carry over unchanged. -/
def apply (s : JokeState) (upd : Update) : Except StepErr JokeState :=
  match upd.find? (fun e => !declaredField e.1) with
  | some e => .error (.schemaErr e.1)
  | none => applyGo s upd

/-- `show_menu` (lines 65-76) re-prompts until the normalized input is one of
`n`, `c`, `q`; this consumes stdin lines up to and including the first valid
one.  `none` when stdin is exhausted before a valid line appears. -/
def show_menu_loop : List String → Option (String × List String)
  | [] => none
  | raw :: rest =>
    let u := get_user_input raw
    if u == "n" || u == "c" || u == "q" then some (u, rest)
    else show_menu_loop rest

/-- The partial update `show_menu` returns (line 76). -/
def show_menu_update (choice : String) : Update :=
  [("jokes_choice", .strV choice)]

/-- `fetch_joke` (lines 79-83): wraps the fetched text into a fresh `Joke`
tagged with the current category and returns it as a one-element append. -/
def fetch_joke (joke_text : String) (s : JokeState) : Update :=
  [("jokes", .jokesV [{ text := joke_text, category := s.category }])]

/-- The category list of `update_category` (line 87). -/
def categories : List String := ["neutral", "chuck", "all"]

/-- `update_category` (lines 86-107): parses the user's input with `int`; an
in-range selection (0 ≤ sel < 3) returns `{category: categories[sel]}`, an
out-of-range selection or a `ValueError` returns the empty update. -/
def update_category (input : String) : Update :=
  match pyInt input with
  | some selection =>
    if 0 ≤ selection ∧ selection < 3 then
      [("category", .strV (categories.getD selection.toNat ""))]
    else []
  | none => []

/-- `exit_bot` (lines 110-114): returns `{quit: True}`. -/
def exit_bot : Update := [("quit", .boolV true)]

/-- `route_choice` (lines 117-129): decision function after `show_menu`. -/
def route_choice (s : JokeState) : String :=
  if s.jokes_choice = "n" then "fetch_joke"
  else if s.jokes_choice = "c" then "update_category"
  else if s.jokes_choice = "q" then "exit_bot"
  else "exit_bot"

/-- The label-to-node dict of the conditional edge after `show_menu`
(lines 150-158). -/
def menu_table : List (String × String) :=
  [("fetch_joke", "fetch_joke"), ("update_category", "update_category"),
    ("exit_bot", "exit_bot")]

/-- Edge resolution for the graph built by `build_joke_graph` (lines 137-165):
the conditional edge after `show_menu`, static edges `fetch_joke -> show_menu`,
`update_category -> show_menu`, `exit_bot -> END`. -/
def resolve (node : String) (s : JokeState) : Option String :=
  if node = "show_menu" then lookupLabel menu_table (route_choice s)
  else if node = "fetch_joke" then some "show_menu"
  else if node = "update_category" then some "show_menu"
  else if node = "exit_bot" then some ENDMARK
  else none

/-- The state threaded through a run plus its external capability ports
(spec §6): pending stdin lines and the joke source
`fetch(language, category) -> text`. -/
structure World where
  state : JokeState
  stdin : List String
  fetch : String → String → String

/-- One node execution: produce the node's partial update (consuming external
inputs as the source does) and merge it into the state. -/
def step (node : String) (w : World) : Except StepErr World :=
  if node = "show_menu" then
    match show_menu_loop w.stdin with
    | some (c, rest) => do
      let s2 ← apply w.state (show_menu_update c)
      pure { w with state := s2, stdin := rest }
    | none => .error .envErr
  else if node = "fetch_joke" then do
    let s2 ← apply w.state (fetch_joke (w.fetch w.state.language w.state.category) w.state)
    pure { w with state := s2 }
  else if node = "update_category" then
    match w.stdin with
    | line :: rest => do
      let s2 ← apply w.state (update_category (get_user_input line))
      pure { w with state := s2, stdin := rest }
    | [] => .error .envErr
  else if node = "exit_bot" then do
    let s2 ← apply w.state exit_bot
    pure { w with state := s2 }
  else .error (.unknownNode node)

/-- Edge resolution lifted to worlds (decisions read only the state). -/
def resolveW (node : String) (w : World) : Option String :=
  resolve node w.state

end L2b

namespace L2c

/-- `AgenticJokeState` (run_wk5_l2c_llm_joke_bot.py:21-24): subclasses
`JokeState` with the writer/critic fields and their pydantic defaults. -/
structure AgenticJokeState extends L2b.JokeState where
  latest_joke : String := ""
  approved : Bool := false
  retry_count : Int := 0
deriving DecidableEq, Repr

/-- Field names declared by the `AgenticJokeState` schema. -/
def declaredField (name : String) : Bool :=
  L2b.declaredField name || name == "latest_joke" || name == "approved" ||
    name == "retry_count"

/-- Merge a single declared field per its policy: `jokes` appends (inherited
`add` reducer), every other field replaces. -/
def applyField (s : AgenticJokeState) (name : String) (v : FieldVal) :
    Option AgenticJokeState :=
  match name, v with
  | "jokes", .jokesV js => some { s with jokes := s.jokes ++ js }
  | "jokes_choice", .strV c => some { s with jokes_choice := c }
  | "category", .strV c => some { s with category := c }
  | "language", .strV c => some { s with language := c }
  | "quit", .boolV b => some { s with quit := b }
  | "latest_joke", .strV c => some { s with latest_joke := c }
  | "approved", .boolV b => some { s with approved := b }
  | "retry_count", .intV n => some { s with retry_count := n }
  | _, _ => none

/-- Fold the (validated) assignments of an update into the state. -/
def applyGo : AgenticJokeState → List (String × FieldVal) →
    Except StepErr AgenticJokeState
  | s, [] => .ok s
  | s, (name, v) :: rest =>
    match applyField s name v with
    | some s2 => applyGo s2 rest
    | none => .error (.typeErr name)

/-- Modelled from the spec (§4.1): `apply` for the `AgenticJokeState` schema;
same contract as `L2b.apply`. -/
def apply (s : AgenticJokeState) (upd : L2b.Update) :
    Except StepErr AgenticJokeState :=
  match upd.find? (fun e => !declaredField e.1) with
  | some e => .error (.schemaErr e.1)
  | none => applyGo s upd

/-- `writer_node` (lines 35-42): stores the writer LLM's response as
`latest_joke`.  The prompt is built by the external `prompt_builder` from a
fixed config plus the current category; that composition is absorbed into the
writer port (spec §6), whose state-dependent argument is the category. -/
def writer_node (response : String) : L2b.Update :=
  [("latest_joke", .strV response)]

/-- `critic_node` (lines 46-55): normalizes the critic LLM's verdict with
`.strip().lower()`, approves iff it contains `"yes"`, and increments
`retry_count`. -/
def critic_node (response : String) (s : AgenticJokeState) : L2b.Update :=
  let decision := strip_lower response
  [("approved", .boolV (contains_yes decision)),
    ("retry_count", .intV (s.retry_count + 1))]

/-- `show_final_joke` (lines 58-61): appends the latest joke to `jokes` and
resets `retry_count`, `approved` and `latest_joke` to their defaults. -/
def show_final_joke (s : AgenticJokeState) : L2b.Update :=
  [("jokes", .jokesV [{ text := s.latest_joke, category := s.category }]),
    ("retry_count", .intV 0), ("approved", .boolV false),
    ("latest_joke", .strV "")]

/-- `writer_critic_router` (lines 64-67): decision function after `critic`. -/
def writer_critic_router (s : AgenticJokeState) : String :=
  if s.approved = true ∨ 5 ≤ s.retry_count then "show_final_joke" else "writer"

/-- The category list of the LLM bot's `update_category` (line 71). -/
def categories : List String :=
  ["dad developer", "chuck norris developer", "general"]

/-- `update_category` (lines 70-100): same logic as the pyjokes bot with the
LLM category list; the input is `input(...).strip()`. -/
def update_category (input : String) : L2b.Update :=
  match pyInt input with
  | some selection =>
    if 0 ≤ selection ∧ selection < 3 then
      [("category", .strV (categories.getD selection.toNat ""))]
    else []
  | none => []

/-- Label-to-node dict of the conditional edge after `show_menu`
(lines 127-135): the `fetch_joke` label now targets the `writer` node. -/
def menu_table : List (String × String) :=
  [("fetch_joke", "writer"), ("update_category", "update_category"),
    ("exit_bot", "exit_bot")]

/-- Label-to-node dict of the conditional edge after `critic`
(lines 139-143). -/
def critic_table : List (String × String) :=
  [("writer", "writer"), ("show_final_joke", "show_final_joke")]

/-- Edge resolution for the graph built by `build_joke_graph`
(lines 106-147).  `route_choice` is reused from the pyjokes bot and reads the
inherited fields. -/
def resolve (node : String) (s : AgenticJokeState) : Option String :=
  if node = "show_menu" then lookupLabel menu_table (L2b.route_choice s.toJokeState)
  else if node = "update_category" then some "show_menu"
  else if node = "writer" then some "critic"
  else if node = "critic" then lookupLabel critic_table (writer_critic_router s)
  else if node = "show_final_joke" then some "show_menu"
  else if node = "exit_bot" then some ENDMARK
  else none

/-- The state threaded through a run plus its external ports (spec §6):
pending stdin lines, the writer LLM port (argument: the category woven into
the writer prompt) and the critic LLM port (argument: the joke under review
woven into the critic prompt). -/
structure World where
  state : AgenticJokeState
  stdin : List String
  writer : String → String
  critic : String → String

/-- One node execution of the LLM bot's graph: produce the node's partial
update (consuming external inputs as the source does) and merge it. -/
def step (node : String) (w : World) : Except StepErr World :=
  if node = "show_menu" then
    match L2b.show_menu_loop w.stdin with
    | some (c, rest) => do
      let s2 ← apply w.state (L2b.show_menu_update c)
      pure { w with state := s2, stdin := rest }
    | none => .error .envErr
  else if node = "update_category" then
    match w.stdin with
    | line :: rest => do
      let s2 ← apply w.state (update_category (pyStrip line))
      pure { w with state := s2, stdin := rest }
    | [] => .error .envErr
  else if node = "exit_bot" then do
    let s2 ← apply w.state L2b.exit_bot
    pure { w with state := s2 }
  else if node = "writer" then do
    let s2 ← apply w.state (writer_node (w.writer w.state.category))
    pure { w with state := s2 }
  else if node = "critic" then do
    let s2 ← apply w.state (critic_node (w.critic w.state.latest_joke) w.state)
    pure { w with state := s2 }
  else if node = "show_final_joke" then do
    let s2 ← apply w.state (show_final_joke w.state)
    pure { w with state := s2 }
  else .error (.unknownNode node)

/-- Edge resolution lifted to worlds (decisions read only the state). -/
def resolveW (node : String) (w : World) : Option String :=
  resolve node w.state

end L2c

/-- Unfold one executor step that succeeds and routes onward. -/
theorem runLoop_succ_ok {σ : Type} (stepFn : String → σ → Except StepErr σ)
    (res : String → σ → Option String) (fuel : Nat) (node nxt : String)
    (s s2 : σ) (hne : node ≠ ENDMARK) (hs : stepFn node s = .ok s2)
    (hr : res node s2 = some nxt) :
    runLoop stepFn res (fuel + 1) node s
      = ((runLoop stepFn res fuel nxt s2).1,
          node :: (runLoop stepFn res fuel nxt s2).2) := by
  simp [runLoop, hne, hs, hr]

/-- A run already at the terminal marker halts with the current state. -/
theorem runLoop_end {σ : Type} (stepFn : String → σ → Except StepErr σ)
    (res : String → σ → Option String) (fuel : Nat) (s : σ) :
    runLoop stepFn res fuel ENDMARK s = (RunResult.halted s, []) := by
  cases fuel <;> simp [runLoop]

/-- C3: merging an Append-policy partial `[c, d]` into a state whose `jokes`
sequence is `[a, b]` yields `[a, b, c, d]` — ordered concatenation, no
reordering, no deduplication — and each `fetch_joke` step appends exactly one
new `Joke` to the end of the sequence. -/
theorem spec_c3_append_merge :
    (∀ (a b c d : Joke) (ch cat lang : String) (q : Bool),
      L2b.apply ⟨[a, b], ch, cat, lang, q⟩ [("jokes", FieldVal.jokesV [c, d])]
        = .ok ⟨[a, b, c, d], ch, cat, lang, q⟩)
    ∧ (∀ (s : L2b.JokeState) (t : String),
      L2b.apply s (L2b.fetch_joke t s)
        = .ok { s with jokes := s.jokes ++ [{ text := t, category := s.category }] }) :=
  ⟨fun _ _ _ _ _ _ _ _ => rfl, fun _ _ => rfl⟩

/-- C6: merging a Replace-policy field yields exactly the new value and every
field absent from the partial carries over unchanged; in particular
`update_category`'s partial `{category: c}` changes only `category`. -/
theorem spec_c6_replace_merge :
    (∀ (s : L2b.JokeState) (c : String),
      L2b.apply s [("category", FieldVal.strV c)] = .ok { s with category := c })
    ∧ (∀ (s : L2b.JokeState) (c : String),
      L2b.apply s [("jokes_choice", FieldVal.strV c)] = .ok { s with jokes_choice := c })
    ∧ (∀ (s : L2b.JokeState) (c : String),
      L2b.apply s [("language", FieldVal.strV c)] = .ok { s with language := c })
    ∧ (∀ (s : L2b.JokeState) (b : Bool),
      L2b.apply s [("quit", FieldVal.boolV b)] = .ok { s with quit := b })
    ∧ (∀ s : L2b.JokeState,
      L2b.apply s (L2b.update_category "0") = .ok { s with category := "neutral" }) :=
  ⟨fun _ _ => rfl, fun _ _ => rfl, fun _ _ => rfl, fun _ _ => rfl, fun _ => rfl⟩

/-- C7: a partial update containing a field name not declared in the
`JokeState` schema is rejected: `apply` fails with a `SchemaError` naming an
undeclared field, and no successor state is produced, so no field of the
input state is modified by the rejected partial. -/
theorem spec_c7_schema_error (s : L2b.JokeState) (upd : L2b.Update)
    (name : String) (v : FieldVal) (hmem : (name, v) ∈ upd)
    (hname : L2b.declaredField name = false) :
    ∃ bad, L2b.apply s upd = .error (.schemaErr bad)
      ∧ L2b.declaredField bad = false := by
  have hex : ∃ x, x ∈ upd ∧ (!L2b.declaredField x.1) = true :=
    ⟨(name, v), hmem, by simp [hname]⟩
  have hsome : (upd.find? fun e => !L2b.declaredField e.1).isSome :=
    List.find?_isSome.mpr hex
  obtain ⟨e, he⟩ := Option.isSome_iff_exists.mp hsome
  refine ⟨e.1, ?_, ?_⟩
  · unfold L2b.apply
    rw [he]
  · have := List.find?_some he
    simpa using this

/-- Witness for C7 at a concrete undeclared field name. -/
theorem spec_c7_witness :
    (("bogus", FieldVal.strV "x") ∈ ([("bogus", FieldVal.strV "x")] : L2b.Update))
    ∧ L2b.declaredField "bogus" = false
    ∧ ∃ bad, L2b.apply {} [("bogus", FieldVal.strV "x")] = .error (.schemaErr bad)
        ∧ L2b.declaredField bad = false :=
  ⟨by decide, by decide,
    spec_c7_schema_error {} [("bogus", FieldVal.strV "x")] "bogus"
      (FieldVal.strV "x") (by decide) (by decide)⟩

/-- C2: conditional routing reads the post-merge state.  For every state and
every choice `c` in `{n, c, q}` returned by `show_menu`'s partial update,
merging `{jokes_choice: c}` yields a state whose `jokes_choice` is the new
value, and `route_choice` on that merged state routes to the node implied by
`c` — regardless of the pre-step value of `jokes_choice`. -/
theorem spec_c2_post_merge_routing (s : L2b.JokeState) (c : String)
    (hc : c = "n" ∨ c = "c" ∨ c = "q") :
    ∃ s2, L2b.apply s (L2b.show_menu_update c) = .ok s2
      ∧ s2.jokes_choice = c
      ∧ L2b.route_choice s2
          = (if c = "n" then "fetch_joke"
             else if c = "c" then "update_category" else "exit_bot")
      ∧ L2b.resolve "show_menu" s2
          = some (if c = "n" then "fetch_joke"
                  else if c = "c" then "update_category" else "exit_bot") := by
  rcases hc with hc | hc | hc <;> subst hc
  · exact ⟨{ s with jokes_choice := "n" }, rfl, rfl, rfl, rfl⟩
  · exact ⟨{ s with jokes_choice := "c" }, rfl, rfl, rfl, rfl⟩
  · exact ⟨{ s with jokes_choice := "q" }, rfl, rfl, rfl, rfl⟩

/-- Witness for C2 at choice `n` on the initial state. -/
theorem spec_c2_witness :
    ("n" = "n" ∨ "n" = "c" ∨ "n" = "q")
    ∧ ∃ s2, L2b.apply L2b.initState (L2b.show_menu_update "n") = .ok s2
        ∧ s2.jokes_choice = "n"
        ∧ L2b.route_choice s2
            = (if "n" = "n" then "fetch_joke"
               else if "n" = "c" then "update_category" else "exit_bot")
        ∧ L2b.resolve "show_menu" s2
            = some (if "n" = "n" then "fetch_joke"
                    else if "n" = "c" then "update_category" else "exit_bot") :=
  ⟨Or.inl rfl, spec_c2_post_merge_routing L2b.initState "n" (Or.inl rfl)⟩

/-- C8: for every state, each decision function returns a label declared in
its conditional edge's label-to-node table — `route_choice` returns only
`fetch_joke`, `update_category` or `exit_bot` (mapped in both graphs' menu
tables) and `writer_critic_router` returns only `writer` or
`show_final_joke` (mapped in the critic table) — so the run-time
`RoutingError` branch for an unmapped label is unreachable in both graphs. -/
theorem spec_c8_labels_mapped (s : L2b.JokeState) (t : L2c.AgenticJokeState) :
    (L2b.route_choice s = "fetch_joke" ∨ L2b.route_choice s = "update_category"
      ∨ L2b.route_choice s = "exit_bot")
    ∧ (lookupLabel L2b.menu_table (L2b.route_choice s)).isSome = true
    ∧ (lookupLabel L2c.menu_table (L2b.route_choice s)).isSome = true
    ∧ (L2c.writer_critic_router t = "writer"
      ∨ L2c.writer_critic_router t = "show_final_joke")
    ∧ (lookupLabel L2c.critic_table (L2c.writer_critic_router t)).isSome = true := by
  have h1 : L2b.route_choice s = "fetch_joke"
      ∨ L2b.route_choice s = "update_category"
      ∨ L2b.route_choice s = "exit_bot" := by
    unfold L2b.route_choice
    split_ifs <;> simp
  have h2 : L2c.writer_critic_router t = "writer"
      ∨ L2c.writer_critic_router t = "show_final_joke" := by
    unfold L2c.writer_critic_router
    split_ifs <;> simp
  refine ⟨h1, ?_, ?_, h2, ?_⟩
  · rcases h1 with h | h | h <;> rw [h] <;> rfl
  · rcases h1 with h | h | h <;> rw [h] <;> rfl
  · rcases h2 with h | h <;> rw [h] <;> rfl

/-- C10: an input to the category-selection step that does not parse as an
integer in range 0..2 (`int` raises ValueError, or the value is out of range)
produces the empty partial update in both bots, so the merge leaves every
field of the state — including `category` — unchanged; an in-range selection
`k` produces `{category: categories[k]}` and changes only `category`. -/
theorem spec_c10_invalid_category_input (input : String) (s : L2b.JokeState) :
    (((pyInt input).all fun k => decide (k < 0 ∨ 3 ≤ k)) = true →
      L2b.update_category input = [] ∧ L2c.update_category input = []
        ∧ L2b.apply s (L2b.update_category input) = .ok s)
    ∧ (∀ k : Int, pyInt input = some k → 0 ≤ k → k < 3 →
      L2b.update_category input
          = [("category", FieldVal.strV (L2b.categories.getD k.toNat ""))]
        ∧ L2c.update_category input
          = [("category", FieldVal.strV (L2c.categories.getD k.toNat ""))]
        ∧ L2b.apply s (L2b.update_category input)
          = .ok { s with category := L2b.categories.getD k.toNat "" }) := by
  constructor
  · intro hall
    cases hp : pyInt input with
    | none =>
      refine ⟨?_, ?_, ?_⟩ <;> simp [L2b.update_category, L2c.update_category, hp, L2b.apply, L2b.applyGo]
    | some k =>
      rw [hp] at hall
      simp [Option.all_some] at hall
      have hout : ¬ (0 ≤ k ∧ k < 3) := by omega
      refine ⟨?_, ?_, ?_⟩ <;>
        simp [L2b.update_category, L2c.update_category, hp, hout, L2b.apply, L2b.applyGo]
  · intro k hp h0 h3
    have hin : 0 ≤ k ∧ k < 3 := ⟨h0, h3⟩
    refine ⟨?_, ?_, ?_⟩
    · simp [L2b.update_category, hp, hin]
    · simp [L2c.update_category, hp, hin]
    · simp [L2b.update_category, hp, hin]
      rfl

/-- Witness for C10 at the non-numeric input `abc` and the in-range input
`1`. -/
theorem spec_c10_witness :
    ((pyInt "abc").all fun k => decide (k < 0 ∨ 3 ≤ k)) = true
    ∧ (L2b.update_category "abc" = [] ∧ L2c.update_category "abc" = []
        ∧ L2b.apply L2b.initState (L2b.update_category "abc") = .ok L2b.initState)
    ∧ pyInt "1" = some 1
    ∧ (L2b.update_category "1"
          = [("category", FieldVal.strV (L2b.categories.getD (1 : Int).toNat ""))]
        ∧ L2c.update_category "1"
          = [("category", FieldVal.strV (L2c.categories.getD (1 : Int).toNat ""))]
        ∧ L2b.apply L2b.initState (L2b.update_category "1")
          = .ok { L2b.initState with
              category := L2b.categories.getD (1 : Int).toNat "" }) :=
  ⟨by decide,
    (spec_c10_invalid_category_input "abc" L2b.initState).1 (by decide),
    by decide,
    (spec_c10_invalid_category_input "1" L2b.initState).2 1 (by decide)
      (by decide) (by decide)⟩

/-- C4: on a graph region with no path to the terminal marker (every node of
the region steps successfully and resolves to another node of the region),
a run with step ceiling `N` started inside the region halts abnormally with
`StepLimitExceeded` after exactly `N` executed steps — never fewer, never
looping forever — and the error carries the last state reached
(`iterSteps` is the `N`-fold step/resolve iteration). -/
theorem spec_c4_step_ceiling {σ : Type} (stepFn : String → σ → Except StepErr σ)
    (res : String → σ → Option String) (P : String → Prop)
    (hPend : ∀ n, P n → n ≠ ENDMARK)
    (hstep : ∀ n s, P n → ∃ s2, stepFn n s = .ok s2)
    (hres : ∀ n s, P n → ∃ m, res n s = some m ∧ P m) :
    ∀ (N : Nat) (node : String) (s : σ), P node →
      ∃ tr, runLoop stepFn res N node s
          = (RunResult.stepLimitExceeded (iterSteps stepFn res N node s).2, tr)
        ∧ tr.length = N := by
  intro N
  induction N with
  | zero =>
    intro node s hP
    exact ⟨[], by simp [runLoop, iterSteps, hPend node hP], rfl⟩
  | succ N ih =>
    intro node s hP
    obtain ⟨s2, hs2⟩ := hstep node s hP
    obtain ⟨m, hm, hPm⟩ := hres node s2 hP
    obtain ⟨tr, htr, hlen⟩ := ih m s2 hPm
    refine ⟨node :: tr, ?_, by simp [hlen]⟩
    rw [runLoop_succ_ok stepFn res N node m s s2 (hPend node hP) hs2 hm, htr]
    simp [iterSteps, hs2, hm]

/-- A two-node cyclic graph with no terminal: `ping -> pong -> ping`. -/
def cycle_step (_ : String) (_ : Unit) : Except StepErr Unit := .ok ()

/-- Edge table of the two-node cycle. -/
def cycle_res (node : String) (_ : Unit) : Option String :=
  if node = "ping" then some "pong" else some "ping"

/-- Witness for C4: the two-node cycle run with ceiling 4 exceeds the step
limit after exactly 4 steps. -/
theorem spec_c4_witness :
    ∃ tr, runLoop cycle_step cycle_res 4 "ping" ()
        = (RunResult.stepLimitExceeded (iterSteps cycle_step cycle_res 4 "ping" ()).2, tr)
      ∧ tr.length = 4 :=
  spec_c4_step_ceiling cycle_step cycle_res
    (fun n => n = "ping" ∨ n = "pong")
    (fun n h => by rcases h with h | h <;> subst h <;> decide)
    (fun n s _ => ⟨(), rfl⟩)
    (fun n s h => by
      rcases h with h | h <;> subst h
      · exact ⟨"pong", rfl, Or.inr rfl⟩
      · exact ⟨"ping", rfl, Or.inl rfl⟩)
    4 "ping" () (Or.inl rfl)

/-- C5: the finalize node `show_final_joke` appends the latest artifact and
resets `retry_count` to 0, `approved` to false and `latest_joke` to its
default `""` (the schema defaults of `AgenticJokeState`), and control then
returns to the outer menu (`show_final_joke -> show_menu`); the intervening
menu nodes preserve those three fields, so a second entry into the
writer/critic sub-pattern starts from the same counter and flag values as
the first — the sub-pattern is re-entrant. -/
theorem spec_c5_finalize_resets :
    (∀ w : L2c.World,
      L2c.step "show_final_joke" w
        = .ok { w with state := { w.state with
            jokes := w.state.jokes
              ++ [{ text := w.state.latest_joke, category := w.state.category }],
            retry_count := 0, approved := false, latest_joke := "" } })
    ∧ (∀ s : L2c.AgenticJokeState, L2c.resolve "show_final_joke" s = some "show_menu")
    ∧ (({} : L2c.AgenticJokeState).retry_count = 0
        ∧ ({} : L2c.AgenticJokeState).approved = false
        ∧ ({} : L2c.AgenticJokeState).latest_joke = "")
    ∧ (∀ (w w2 : L2c.World), L2c.step "show_menu" w = .ok w2 →
        w2.state.retry_count = w.state.retry_count
          ∧ w2.state.approved = w.state.approved
          ∧ w2.state.latest_joke = w.state.latest_joke)
    ∧ (∀ (w w2 : L2c.World), L2c.step "update_category" w = .ok w2 →
        w2.state.retry_count = w.state.retry_count
          ∧ w2.state.approved = w.state.approved
          ∧ w2.state.latest_joke = w.state.latest_joke) := by
  refine ⟨fun w => rfl, fun s => rfl, ⟨rfl, rfl, rfl⟩, ?_, ?_⟩
  · intro w w2 h
    simp only [L2c.step, reduceIte] at h
    cases hsm : L2b.show_menu_loop w.stdin with
    | none => rw [hsm] at h; simp at h
    | some p =>
      obtain ⟨c, rest⟩ := p
      rw [hsm] at h
      simp [L2b.show_menu_update, L2c.apply, L2c.applyGo, L2c.applyField,
        L2c.declaredField, L2b.declaredField, Except.bind, bind, pure,
        Except.pure] at h
      subst h
      simp
  · intro w w2 h
    simp only [L2c.step, reduceIte] at h
    cases hst : w.stdin with
    | nil => rw [hst] at h; simp at h
    | cons line rest =>
      rw [hst] at h
      rcases hpi : pyInt (pyStrip line) with _ | k
      · simp [L2c.update_category, hpi, L2c.apply, L2c.applyGo, Except.bind,
          bind, pure, Except.pure, List.find?] at h
        subst h
        simp
      · by_cases hk : 0 ≤ k ∧ k < 3
        · simp [L2c.update_category, hpi, hk, L2c.apply, L2c.applyGo,
            L2c.applyField, L2c.declaredField, L2b.declaredField, Except.bind,
            bind, pure, Except.pure, List.find?] at h
          subst h
          simp
        · simp [L2c.update_category, hpi, hk, L2c.apply, L2c.applyGo,
            Except.bind, bind, pure, Except.pure, List.find?] at h
          subst h
          simp

/-- A concrete LLM-bot world about to show the menu. -/
def demoC5W : L2c.World :=
  { state := {}, stdin := ["n"],
    writer := fun c => String.append "joke about " c, critic := fun _ => "no" }

/-- The world after `show_menu` consumes the `n` line of `demoC5W`. -/
def demoC5W2 : L2c.World :=
  { demoC5W with state := { jokes_choice := "n" }, stdin := [] }

/-- Witness for C5's re-entrancy conjuncts at a concrete menu step. -/
theorem spec_c5_witness :
    L2c.step "show_menu" demoC5W = .ok demoC5W2
    ∧ (demoC5W2.state.retry_count = demoC5W.state.retry_count
        ∧ demoC5W2.state.approved = demoC5W.state.approved
        ∧ demoC5W2.state.latest_joke = demoC5W.state.latest_joke) :=
  ⟨rfl, spec_c5_finalize_resets.2.2.2.1 demoC5W demoC5W2 rfl⟩

/-- `route_choice` can only return one of its three declared labels. -/
theorem route_choice_cases (s : L2b.JokeState) :
    L2b.route_choice s = "fetch_joke" ∨ L2b.route_choice s = "update_category"
      ∨ L2b.route_choice s = "exit_bot" := by
  unfold L2b.route_choice
  split_ifs <;> simp

/-- In the pyjokes graph, only `exit_bot` resolves to the terminal marker. -/
theorem l2b_resolve_end (node : String) (s : L2b.JokeState)
    (h : L2b.resolve node s = some ENDMARK) : node = "exit_bot" := by
  unfold L2b.resolve at h
  by_cases h1 : node = "show_menu"
  · rw [if_pos h1] at h
    exfalso
    rcases route_choice_cases s with hr | hr | hr <;> rw [hr] at h <;>
      revert h <;> decide
  · rw [if_neg h1] at h
    by_cases h2 : node = "fetch_joke"
    · rw [if_pos h2] at h
      exfalso; revert h; decide
    · rw [if_neg h2] at h
      by_cases h3 : node = "update_category"
      · rw [if_pos h3] at h
        exfalso; revert h; decide
      · rw [if_neg h3] at h
        by_cases h4 : node = "exit_bot"
        · exact h4
        · rw [if_neg h4] at h
          exfalso; revert h; decide

/-- Every normally-halted run of the pyjokes graph ends in a state with
`quit = true` (the terminal marker is reachable only through `exit_bot`). -/
theorem l2b_halted_quit : ∀ (fuel : Nat) (node : String) (w w2 : L2b.World)
    (tr : List String), node ≠ ENDMARK →
    runLoop L2b.step L2b.resolveW fuel node w = (RunResult.halted w2, tr) →
    w2.state.quit = true := by
  intro fuel
  induction fuel with
  | zero =>
    intro node w w2 tr hne h
    simp [runLoop, hne] at h
  | succ f ih =>
    intro node w w2 tr hne h
    simp only [runLoop, if_neg hne] at h
    cases hstep : L2b.step node w with
    | error e => rw [hstep] at h; dsimp only at h; simp at h
    | ok w1 =>
      rw [hstep] at h
      dsimp only at h
      cases hres : L2b.resolveW node w1 with
      | none => rw [hres] at h; dsimp only at h; simp at h
      | some nxt =>
        rw [hres] at h
        dsimp only at h
        simp only [Prod.mk.injEq] at h
        obtain ⟨h1, h2⟩ := h
        by_cases hnxt : nxt = ENDMARK
        · subst hnxt
          rw [runLoop_end] at h1
          obtain rfl := (RunResult.halted.injEq _ _).mp h1
          have hnode : node = "exit_bot" :=
            l2b_resolve_end node w1.state (by simpa [L2b.resolveW] using hres)
          subst hnode
          have hw1 : w1 = { w with state := { w.state with quit := true } } := by
            have h3 := hstep
            simp [L2b.step, L2b.apply, L2b.applyGo, L2b.applyField, L2b.exit_bot,
              L2b.declaredField, Except.bind, bind, pure, Except.pure,
              List.find?] at h3
            exact h3.symm
          rw [hw1]
        · exact ih nxt w1 w2 (runLoop L2b.step L2b.resolveW f nxt w1).2 hnxt
            (by rw [← h1])

/-- `writer_critic_router` can only return one of its two declared labels. -/
theorem writer_critic_router_cases (s : L2c.AgenticJokeState) :
    L2c.writer_critic_router s = "writer"
      ∨ L2c.writer_critic_router s = "show_final_joke" := by
  unfold L2c.writer_critic_router
  split_ifs <;> simp

/-- In the LLM graph, only `exit_bot` resolves to the terminal marker. -/
theorem l2c_resolve_end (node : String) (s : L2c.AgenticJokeState)
    (h : L2c.resolve node s = some ENDMARK) : node = "exit_bot" := by
  unfold L2c.resolve at h
  by_cases h1 : node = "show_menu"
  · rw [if_pos h1] at h
    exfalso
    rcases route_choice_cases s.toJokeState with hr | hr | hr <;> rw [hr] at h <;>
      revert h <;> decide
  · rw [if_neg h1] at h
    by_cases h2 : node = "update_category"
    · rw [if_pos h2] at h
      exfalso; revert h; decide
    · rw [if_neg h2] at h
      by_cases h3 : node = "writer"
      · rw [if_pos h3] at h
        exfalso; revert h; decide
      · rw [if_neg h3] at h
        by_cases h4 : node = "critic"
        · rw [if_pos h4] at h
          exfalso
          rcases writer_critic_router_cases s with hr | hr <;> rw [hr] at h <;>
            revert h <;> decide
        · rw [if_neg h4] at h
          by_cases h5 : node = "show_final_joke"
          · rw [if_pos h5] at h
            exfalso; revert h; decide
          · rw [if_neg h5] at h
            by_cases h6 : node = "exit_bot"
            · exact h6
            · rw [if_neg h6] at h
              exfalso; revert h; decide

/-- Every normally-halted run of the LLM graph ends in a state with
`quit = true`. -/
theorem l2c_halted_quit : ∀ (fuel : Nat) (node : String) (w w2 : L2c.World)
    (tr : List String), node ≠ ENDMARK →
    runLoop L2c.step L2c.resolveW fuel node w = (RunResult.halted w2, tr) →
    w2.state.quit = true := by
  intro fuel
  induction fuel with
  | zero =>
    intro node w w2 tr hne h
    simp [runLoop, hne] at h
  | succ f ih =>
    intro node w w2 tr hne h
    simp only [runLoop, if_neg hne] at h
    cases hstep : L2c.step node w with
    | error e => rw [hstep] at h; dsimp only at h; simp at h
    | ok w1 =>
      rw [hstep] at h
      dsimp only at h
      cases hres : L2c.resolveW node w1 with
      | none => rw [hres] at h; dsimp only at h; simp at h
      | some nxt =>
        rw [hres] at h
        dsimp only at h
        simp only [Prod.mk.injEq] at h
        obtain ⟨h1, h2⟩ := h
        by_cases hnxt : nxt = ENDMARK
        · subst hnxt
          rw [runLoop_end] at h1
          obtain rfl := (RunResult.halted.injEq _ _).mp h1
          have hnode : node = "exit_bot" :=
            l2c_resolve_end node w1.state (by simpa [L2c.resolveW] using hres)
          subst hnode
          have hw1 : w1 = { w with state := { w.state with quit := true } } := by
            have h3 := hstep
            simp [L2c.step, L2c.apply, L2c.applyGo, L2c.applyField, L2b.exit_bot,
              L2c.declaredField, L2b.declaredField, Except.bind, bind, pure,
              Except.pure, List.find?] at h3
            exact h3.symm
          rw [hw1]
        · exact ih nxt w1 w2 (runLoop L2c.step L2c.resolveW f nxt w1).2 hnxt
            (by rw [← h1])

/-- C9: every run that halts normally (reaches the terminal marker rather
than the step ceiling) does so through `exit_bot`, whose partial update sets
`quit` to true — so the final state of a normally-halted run of either graph
has `quit = true`, although the initial state has `quit = false`. -/
theorem spec_c9_quit_on_halt :
    L2b.initState.quit = false
    ∧ (∀ (fuel : Nat) (node : String) (w w2 : L2b.World) (tr : List String),
        node ≠ ENDMARK →
        runLoop L2b.step L2b.resolveW fuel node w = (RunResult.halted w2, tr) →
        w2.state.quit = true)
    ∧ ({} : L2c.AgenticJokeState).quit = false
    ∧ (∀ (fuel : Nat) (node : String) (w w2 : L2c.World) (tr : List String),
        node ≠ ENDMARK →
        runLoop L2c.step L2c.resolveW fuel node w = (RunResult.halted w2, tr) →
        w2.state.quit = true) :=
  ⟨rfl, l2b_halted_quit, rfl, l2c_halted_quit⟩

/-- A concrete pyjokes world whose user immediately quits. -/
def demoW : L2b.World :=
  { state := {}, stdin := ["q"], fetch := fun _ _ => "a joke" }

/-- The final world of `demoW`'s run. -/
def demoWfin : L2b.World :=
  { state := { jokes_choice := "q", quit := true }, stdin := [],
    fetch := demoW.fetch }

/-- Witness for C9 on the concrete quitting run. -/
theorem spec_c9_witness :
    ("show_menu" ≠ ENDMARK)
    ∧ runLoop L2b.step L2b.resolveW 5 "show_menu" demoW
        = (RunResult.halted demoWfin, ["show_menu", "exit_bot"])
    ∧ demoWfin.state.quit = true :=
  ⟨by decide, rfl,
    spec_c9_quit_on_halt.2.1 5 "show_menu" demoW demoWfin
      ["show_menu", "exit_bot"] (by decide) rfl⟩

/-- The state of the LLM-bot world after one writer+critic pair: the writer
stores its response in `latest_joke`, then the critic stores its verdict in
`approved` and increments `retry_count`. -/
def wcPair (w : L2c.World) (s : L2c.AgenticJokeState) : L2c.AgenticJokeState :=
  { s with latest_joke := w.writer s.category,
           approved := contains_yes (strip_lower (w.critic (w.writer s.category))),
           retry_count := s.retry_count + 1 }

/-- When the critic rejects every candidate, the writer/critic cycle entered
with `k` attempts remaining (`retry_count + k = 5`) executes exactly `k`
writer+critic pairs and then reaches `show_final_joke` with `retry_count = 5`,
`approved = false` and the last writer response in `latest_joke`. -/
theorem wc_loop (k : Nat) : ∀ (w : L2c.World) (rest : Nat),
    1 ≤ k →
    w.state.approved = false →
    w.state.retry_count + (k : Int) = 5 →
    (∀ j, contains_yes (strip_lower (w.critic j)) = false) →
    ∃ s5 : L2c.AgenticJokeState,
      runLoop L2c.step L2c.resolveW (2 * k + rest) "writer" w
        = ((runLoop L2c.step L2c.resolveW rest "show_final_joke"
              { w with state := s5 }).1,
            (List.replicate k (["writer", "critic"] : List String)).flatten
              ++ (runLoop L2c.step L2c.resolveW rest "show_final_joke"
                    { w with state := s5 }).2)
      ∧ s5.retry_count = 5 ∧ s5.approved = false
      ∧ s5.latest_joke = w.writer w.state.category
      ∧ s5.category = w.state.category
      ∧ s5.jokes = w.state.jokes := by
  induction k with
  | zero => intro w rest hk; exact absurd hk (by decide)
  | succ k ih =>
    intro w rest hk happ hrc hcrit
    have hfuel : 2 * (k + 1) + rest = ((2 * k + rest) + 1) + 1 := by ring
    have hsw : L2c.step "writer" w
        = .ok { w with state :=
            { w.state with latest_joke := w.writer w.state.category } } := rfl
    have hrw : L2c.resolveW "writer"
        { w with state :=
            { w.state with latest_joke := w.writer w.state.category } }
        = some "critic" := rfl
    have hsc : L2c.step "critic"
        { w with state :=
            { w.state with latest_joke := w.writer w.state.category } }
        = .ok { w with state := wcPair w w.state } := rfl
    have hap : (wcPair w w.state).approved = false := by
      simpa [wcPair] using hcrit (w.writer w.state.category)
    have hrt : (wcPair w w.state).retry_count = w.state.retry_count + 1 := by
      simp [wcPair]
    rcases Nat.eq_zero_or_pos k with rfl | hkpos
    · have hr5 : w.state.retry_count = 4 := by push_cast at hrc; omega
      have hr2 : L2c.resolveW "critic" { w with state := wcPair w w.state }
          = some "show_final_joke" := by
        show lookupLabel L2c.critic_table
          (L2c.writer_critic_router (wcPair w w.state)) = some "show_final_joke"
        unfold L2c.writer_critic_router
        rw [hap, hrt, hr5]
        decide
      refine ⟨wcPair w w.state, ?_, ?_, hap, ?_, ?_, ?_⟩
      · rw [hfuel, runLoop_succ_ok _ _ _ _ _ _ _ (by decide) hsw hrw,
          runLoop_succ_ok _ _ _ _ _ _ _ (by decide) hsc hr2,
          show 2 * 0 + rest = rest by ring]
        simp
      · rw [hrt, hr5]; norm_num
      · simp [wcPair]
      · simp [wcPair]
      · simp [wcPair]
    · have hr2 : L2c.resolveW "critic" { w with state := wcPair w w.state }
          = some "writer" := by
        show lookupLabel L2c.critic_table
          (L2c.writer_critic_router (wcPair w w.state)) = some "writer"
        unfold L2c.writer_critic_router
        rw [hap, hrt, if_neg (by simp; push_cast at hrc; omega)]
        rfl
      have hrc2 : (wcPair w w.state).retry_count + (k : Int) = 5 := by
        rw [hrt]; push_cast at hrc ⊢; omega
      obtain ⟨s5, heq, h5rt, h5ap, h5lat, h5cat, h5jok⟩ :=
        ih { w with state := wcPair w w.state } rest hkpos hap hrc2 hcrit
      refine ⟨s5, ?_, h5rt, h5ap, ?_, ?_, ?_⟩
      · rw [hfuel, runLoop_succ_ok _ _ _ _ _ _ _ (by decide) hsw hrw,
          runLoop_succ_ok _ _ _ _ _ _ _ (by decide) hsc hr2, heq]
        simp [List.replicate_succ]
      · simpa [wcPair] using h5lat
      · simpa [wcPair] using h5cat
      · simpa [wcPair] using h5jok

/-- C1: with `MAX_ATTEMPTS = 5` hard-coded in `writer_critic_router`, when
the critic rejects on every invocation, the conditional edge after the
critic routes back to the writer while `approved` is false and the counter
is below 5 and routes to `show_final_joke` as soon as the counter reaches 5;
a run entering the writer node with `retry_count = 0` therefore executes
exactly 5 writer invocations (the trace is 5 writer/critic pairs) before
`show_final_joke`, which then appends the last produced joke to `jokes`
unconditionally. -/
theorem spec_c1_bounded_retry (w : L2c.World) (rest : Nat)
    (happ : w.state.approved = false)
    (hrc : w.state.retry_count = 0)
    (hcrit : ∀ j, contains_yes (strip_lower (w.critic j)) = false) :
    (∀ s : L2c.AgenticJokeState, s.approved = false → s.retry_count < 5 →
      L2c.writer_critic_router s = "writer")
    ∧ (∀ s : L2c.AgenticJokeState, 5 ≤ s.retry_count →
      L2c.writer_critic_router s = "show_final_joke")
    ∧ (List.replicate 5 (["writer", "critic"] : List String)).flatten.count
        "writer" = 5
    ∧ ∃ s5 : L2c.AgenticJokeState,
        runLoop L2c.step L2c.resolveW (10 + rest) "writer" w
          = ((runLoop L2c.step L2c.resolveW rest "show_final_joke"
                { w with state := s5 }).1,
              (List.replicate 5 (["writer", "critic"] : List String)).flatten
                ++ (runLoop L2c.step L2c.resolveW rest "show_final_joke"
                      { w with state := s5 }).2)
        ∧ s5.retry_count = 5 ∧ s5.approved = false
        ∧ s5.latest_joke = w.writer w.state.category
        ∧ L2c.step "show_final_joke" { w with state := s5 }
            = .ok { w with state := { s5 with
                jokes := s5.jokes
                  ++ [{ text := s5.latest_joke, category := s5.category }],
                retry_count := 0, approved := false, latest_joke := "" } } := by
  refine ⟨?_, ?_, by decide, ?_⟩
  · intro s hap hlt
    unfold L2c.writer_critic_router
    rw [if_neg (by simp [hap]; omega)]
  · intro s h5
    unfold L2c.writer_critic_router
    rw [if_pos (Or.inr h5)]
  · rw [show 10 + rest = 2 * 5 + rest by ring]
    obtain ⟨s5, heq, h5rt, h5ap, h5lat, _, _⟩ :=
      wc_loop 5 w rest (by norm_num) happ (by rw [hrc]; norm_num) hcrit
    exact ⟨s5, heq, h5rt, h5ap, h5lat, rfl⟩

/-- A concrete LLM-bot world entering the writer/critic sub-pattern with an
always-rejecting critic. -/
def demoWC : L2c.World :=
  { state := { category := "dad developer" }, stdin := [],
    writer := fun c => String.append "a joke about " c,
    critic := fun _ => "NO" }

/-- Witness for C1 on the concrete always-rejecting world. -/
theorem spec_c1_witness :
    demoWC.state.approved = false ∧ demoWC.state.retry_count = 0
    ∧ (∀ j, contains_yes (strip_lower (demoWC.critic j)) = false)
    ∧ ∃ s5 : L2c.AgenticJokeState,
        runLoop L2c.step L2c.resolveW (10 + 1) "writer" demoWC
          = ((runLoop L2c.step L2c.resolveW 1 "show_final_joke"
                { demoWC with state := s5 }).1,
              (List.replicate 5 (["writer", "critic"] : List String)).flatten
                ++ (runLoop L2c.step L2c.resolveW 1 "show_final_joke"
                      { demoWC with state := s5 }).2)
        ∧ s5.retry_count = 5 ∧ s5.approved = false
        ∧ s5.latest_joke = demoWC.writer demoWC.state.category
        ∧ L2c.step "show_final_joke" { demoWC with state := s5 }
            = .ok { demoWC with state := { s5 with
                jokes := s5.jokes
                  ++ [{ text := s5.latest_joke, category := s5.category }],
                retry_count := 0, approved := false, latest_joke := "" } } :=
  ⟨rfl, rfl,
    fun _ => (by decide : contains_yes (strip_lower "NO") = false),
    (spec_c1_bounded_retry demoWC 1 rfl rfl
      (fun _ => (by decide : contains_yes (strip_lower "NO") = false))).2.2.2⟩
